import Mathlib

/-!
Shallow embedding of the NeuS renderer mixin
(`nr3d_lib/models/fields/neus/renderer_mixin.py`) and proofs about its
ray-query orchestration, compositing, shrink ordering, and input checking.

Floating-point scalars of the source are modelled as exact rationals; the
"within floating tolerance" equalities of the spec become exact equalities
of the rational model.  The sampler strategies, the field networks, the
acceleration structure and the space object are external collaborators of
this file's code: they appear as parameters or as opaque-to-us state fields,
exactly at the call boundary the source uses them at.
-/

namespace NeusRenderer

/-- One 3-component vector (a point, a color, or a normal). -/
structure Vec3 where
  x : ℚ
  y : ℚ
  z : ℚ
deriving DecidableEq, Repr

def Vec3.zero : Vec3 := ⟨0, 0, 0⟩

def Vec3.add (a b : Vec3) : Vec3 := ⟨a.x + b.x, a.y + b.y, a.z + b.z⟩

/-- Scalar multiplication of a vector (the broadcasted `vw * tensor`
products of the compositing code). -/
def smul (c : ℚ) (v : Vec3) : Vec3 := ⟨c * v.x, c * v.y, c * v.z⟩

/-- Sum of a list of vectors (the `.sum(dim=...)` reductions on the last
feature axis). -/
def vecSum (l : List Vec3) : Vec3 := l.foldr Vec3.add Vec3.zero

/-- One scalar component of `tensor.clamp_(-1, 1)`. -/
def clampQ (q : ℚ) : ℚ := max (-1) (min 1 q)

/-- Componentwise clamp of a vector into `[-1, 1]`, the effect of
`nablas.clamp_(-1, 1)` on one sample's normal. -/
def clamp3 (v : Vec3) : Vec3 := ⟨clampQ v.x, clampQ v.y, clampQ v.z⟩

/-- The renderer's normalization epsilon `1e-10` used in
`vw / (vw_sum + 1e-10)`. -/
def vwEps : ℚ := 1 / 10 ^ 10

/-- Modelled from the spec: the alpha-compositing recurrence of
`ray_alpha_to_vw` / `packed_alpha_to_vw` (`nr3d_lib.graphics.nerf`, not part
of this corpus) along one ray.  The weight of a sample is its alpha times
the transmittance accumulated from all preceding samples of the same ray,
and the transmittance is updated multiplicatively by `(1 - alpha)`.
`T` is the transmittance entering the current sample. -/
def alphaToVwFrom (T : ℚ) : List ℚ → List ℚ
  | [] => []
  | a :: rest => T * a :: alphaToVwFrom (T * (1 - a)) rest

/-- Modelled from the spec: `ray_alpha_to_vw` on a batched `[ray, sample]`
layout — the per-ray recurrence applied along the sample axis of every
row. -/
def ray_alpha_to_vw (alphas : List (List ℚ)) : List (List ℚ) :=
  alphas.map (alphaToVwFrom 1)

/-- One ray's slice of a packed (flat) tensor, selected by the ray's
pack-info pair `(start offset, sample count)`. -/
def segment (flat : List α) (oc : Nat × Nat) : List α :=
  (flat.drop oc.1).take oc.2

/-- Modelled from the spec: `packed_alpha_to_vw` — the same compositing
recurrence, run independently inside each ray's pack-info segment of the
flat sample axis. -/
def packed_alpha_to_vw (alphas : List ℚ) (packInfos : List (Nat × Nat)) : List ℚ :=
  (packInfos.map fun oc => alphaToVwFrom 1 (segment alphas oc)).flatten

/-- Modelled from the spec: `packed_sum` — segmented sum keyed by the
pack-info table, one scalar per ray. -/
def packed_sum (vals : List ℚ) (packInfos : List (Nat × Nat)) : List ℚ :=
  packInfos.map fun oc => (segment vals oc).sum

/-- Modelled from the spec: `packed_sum` applied to a packed tensor with a
trailing feature axis (colors / normals), one vector per ray. -/
def packed_sum_vec (vals : List Vec3) (packInfos : List (Nat × Nat)) : List Vec3 :=
  packInfos.map fun oc => vecSum (segment vals oc)

/-- Modelled from the spec: `packed_div` — divide every sample of a ray's
segment by that ray's scalar divisor. -/
def packed_div (vals : List ℚ) (divisors : List ℚ) (packInfos : List (Nat × Nat)) : List ℚ :=
  ((packInfos.zip divisors).map fun p => (segment vals p.1).map (fun q => q / p.2)).flatten

/-- PyTorch advanced-indexing assignment `dst[inds] = vals`: write
`vals[i]` at position `inds[i]` of `dst`, later writes last. -/
def scatter (dst : List α) (inds : List Nat) (vals : List α) : List α :=
  (inds.zip vals).foldl (fun acc p => acc.set p.1 p.2) dst

/-- A batched volume buffer: fixed sample count per hit ray, fields indexed
`[ray, sample]`.  `vw` is absent until the per-object rendering branch adds
it. -/
structure BatchedBuffer where
  rays_inds_hit : List Nat
  t : List (List ℚ)
  opacity_alpha : List (List ℚ)
  rgb : List (List Vec3)
  nablas : List (List Vec3)
  vw : Option (List (List ℚ)) := none
deriving DecidableEq, Repr

/-- A packed volume buffer: one flat sample axis plus the per-ray pack-info
table. -/
structure PackedBuffer where
  rays_inds_hit : List Nat
  pack_infos_hit : List (Nat × Nat)
  t : List ℚ
  opacity_alpha : List ℚ
  rgb : List Vec3
  nablas : List Vec3
  vw : Option (List ℚ) := none
deriving DecidableEq, Repr

/-- The three shapes a queried volume buffer can take
(`volume_buffer['type']`). -/
inductive VolumeBuffer where
  | empty
  | batched (b : BatchedBuffer)
  | packed (p : PackedBuffer)
deriving DecidableEq, Repr

/-- The hit-ray index list of a buffer (`[]` for the empty buffer, mirroring
`dict(type='empty', rays_inds_hit=[])`). -/
def bufferHitInds : VolumeBuffer → List Nat
  | .empty => []
  | .batched b => b.rays_inds_hit
  | .packed p => p.rays_inds_hit

/-- The per-object rendered output dict.  The color / normal images exist
only when `with_rgb` / `with_normal` were set. -/
structure Rendered where
  mask_volume : List ℚ
  depth_volume : List ℚ
  rgb_volume : Option (List Vec3)
  normals_volume : Option (List Vec3)
deriving DecidableEq, Repr

/-- The zero initialization of the rendered outputs over the full original
ray-batch shape (`torch.zeros([*prefix_rays])` and friends). -/
def zeroRendered (numTotalRays : Nat) (withRgb withNormal : Bool) : Rendered :=
  { mask_volume := List.replicate numTotalRays 0
    depth_volume := List.replicate numTotalRays 0
    rgb_volume := if withRgb then some (List.replicate numTotalRays Vec3.zero) else none
    normals_volume := if withNormal then some (List.replicate numTotalRays Vec3.zero) else none }

/-- The ray at index `j` of the `N`-ray batch holds the zero/background
value in every per-object rendered output of `r'`, and every output array
spans the full original ray-batch shape. -/
def UntouchedAt (r' : Rendered) (N j : Nat) (wrgb wn : Bool) : Prop :=
  r'.mask_volume.length = N ∧ r'.depth_volume.length = N ∧
  r'.mask_volume.getD j 1 = 0 ∧ r'.depth_volume.getD j 1 = 0 ∧
  (wrgb = true → ∃ cv, r'.rgb_volume = some cv ∧ cv.length = N ∧
    cv.getD j ⟨1, 1, 1⟩ = Vec3.zero) ∧
  (wn = true → ∃ nv, r'.normals_volume = some nv ∧ nv.length = N ∧
    nv.getD j ⟨1, 1, 1⟩ = Vec3.zero)

/-- The batched arm of the per-object rendering branch of `ray_query`
(source lines 402-419).  Returns the updated buffer (the source mutates the
buffer dict in place: it adds the `vw` entry, and `clamp_` clamps `nablas`
in place in the inference normal branch) together with the updated rendered
outputs.  `normFn` stands for the external `F.normalize(·, dim=-1)`. -/
def renderBatched (training : Bool) (normFn : Vec3 → Vec3)
    (withRgb withNormal depthNorm : Bool)
    (b : BatchedBuffer) (r : Rendered) : BatchedBuffer × Rendered :=
  let inds := b.rays_inds_hit
  let vw := ray_alpha_to_vw b.opacity_alpha
  let vwSum := vw.map List.sum
  let mask := scatter r.mask_volume inds vwSum
  let depthVals :=
    if depthNorm then
      let vwNormalized := List.zipWith (fun row s => row.map (fun w => w / (s + vwEps))) vw vwSum
      List.zipWith (fun row ts => (List.zipWith (fun w t => w * t) row ts).sum) vwNormalized b.t
    else
      List.zipWith (fun row ts => (List.zipWith (fun w t => w * t) row ts).sum) vw b.t
  let depth := scatter r.depth_volume inds depthVals
  let rgbVolume :=
    if withRgb then
      r.rgb_volume.map fun dst =>
        scatter dst inds (List.zipWith (fun row cs => vecSum (List.zipWith smul row cs)) vw b.rgb)
    else r.rgb_volume
  let nablasOut :=
    if withNormal && !training then b.nablas.map (List.map clamp3) else b.nablas
  let normalsVolume :=
    if withNormal then
      r.normals_volume.map fun dst =>
        if training then
          scatter dst inds (List.zipWith (fun row ns => vecSum (List.zipWith smul row ns)) vw b.nablas)
        else
          scatter dst inds
            (List.zipWith (fun row ns => vecSum (List.zipWith smul row (ns.map normFn))) vw nablasOut)
    else r.normals_volume
  ({ b with vw := some vw, nablas := nablasOut },
   { mask_volume := mask, depth_volume := depth,
     rgb_volume := rgbVolume, normals_volume := normalsVolume })

/-- The packed arm of the per-object rendering branch of `ray_query`
(source lines 420-439), built from segmented reductions keyed by
`pack_infos_hit`. -/
def renderPacked (training : Bool) (normFn : Vec3 → Vec3)
    (withRgb withNormal depthNorm : Bool)
    (p : PackedBuffer) (r : Rendered) : PackedBuffer × Rendered :=
  let inds := p.rays_inds_hit
  let infos := p.pack_infos_hit
  let vw := packed_alpha_to_vw p.opacity_alpha infos
  let vwSum := packed_sum vw infos
  let mask := scatter r.mask_volume inds vwSum
  let depthVals :=
    if depthNorm then
      let vwNormalized := packed_div vw (vwSum.map (fun s => s + vwEps)) infos
      packed_sum (List.zipWith (fun w t => w * t) vwNormalized p.t) infos
    else
      packed_sum (List.zipWith (fun w t => w * t) vw p.t) infos
  let depth := scatter r.depth_volume inds depthVals
  let rgbVolume :=
    if withRgb then
      r.rgb_volume.map fun dst =>
        scatter dst inds (packed_sum_vec (List.zipWith smul vw p.rgb) infos)
    else r.rgb_volume
  let nablasOut :=
    if withNormal && !training then p.nablas.map clamp3 else p.nablas
  let normalsVolume :=
    if withNormal then
      r.normals_volume.map fun dst =>
        if training then
          scatter dst inds (packed_sum_vec (List.zipWith smul vw p.nablas) infos)
        else
          scatter dst inds (packed_sum_vec (List.zipWith smul vw (nablasOut.map normFn)) infos)
    else r.normals_volume
  ({ p with vw := some vw, nablas := nablasOut },
   { mask_volume := mask, depth_volume := depth,
     rgb_volume := rgbVolume, normals_volume := normalsVolume })

/-- One sample of one ray, carrying the per-sample fields a volume buffer
stores in parallel arrays.  Used to state that a batched buffer and a
packed buffer hold the same per-ray samples. -/
structure Sample where
  t : ℚ
  alpha : ℚ
  rgb : Vec3
  nabla : Vec3
deriving DecidableEq, Repr

/-- The pack-info table describing the canonical flattening of per-ray rows
into one flat sample axis, starting at offset `off`: consecutive segments,
one per ray, each of that ray's length. -/
def packInfosFrom (off : Nat) : List (List α) → List (Nat × Nat)
  | [] => []
  | r :: rest => (off, r.length) :: packInfosFrom (off + r.length) rest

def canonicalPackInfos (rows : List (List α)) : List (Nat × Nat) :=
  packInfosFrom 0 rows

/-- Store per-ray sample rows in the batched layout. -/
def batchedOfRows (inds : List Nat) (rows : List (List Sample)) : BatchedBuffer :=
  { rays_inds_hit := inds
    t := rows.map (List.map Sample.t)
    opacity_alpha := rows.map (List.map Sample.alpha)
    rgb := rows.map (List.map Sample.rgb)
    nablas := rows.map (List.map Sample.nabla) }

/-- Store the same per-ray sample rows in the packed layout: flat arrays
plus the canonical pack-info table. -/
def packedOfRows (inds : List Nat) (rows : List (List Sample)) : PackedBuffer :=
  { rays_inds_hit := inds
    pack_infos_hit := canonicalPackInfos rows
    t := (rows.map (List.map Sample.t)).flatten
    opacity_alpha := (rows.map (List.map Sample.alpha)).flatten
    rgb := (rows.map (List.map Sample.rgb)).flatten
    nablas := (rows.map (List.map Sample.nabla)).flatten }

/-- The failure modes of the query-mode dispatch in `ray_query`:
`NotImplementedError` for the two declared-but-unimplemented modes, and
`RuntimeError(f"Invalid query_mode=...")` for an unrecognized mode. -/
inductive QueryError where
  | notImplemented
  | invalidQueryMode (mode : String)
deriving DecidableEq, Repr

/-- The four implemented sampler strategies, external to this file
(`nr3d_lib.graphics.neus`); each is represented by the volume buffer it
would produce for the tested rays at hand. -/
structure SamplerStrategies where
  march_occ_multi_upsample : VolumeBuffer
  march_occ_multi_upsample_compressed : VolumeBuffer
  coarse_multi_upsample : VolumeBuffer
  sphere_trace : VolumeBuffer
deriving DecidableEq, Repr

/-- The `ray_query` configuration surface the claims touch.
`depth_use_normalized_vw` is read with `config.get(..., True)`, hence the
`true` default. -/
structure QueryConfig where
  query_mode : String
  with_rgb : Bool
  with_normal : Bool
  perturb : Bool
  depth_use_normalized_vw : Bool := true
deriving DecidableEq, Repr

/-- The `if/elif` dispatch over `query_mode` in `ray_query` (source lines
355-380), in source order.  Two modes are declared but raise
`NotImplementedError`; the final `else` raises `RuntimeError`. -/
def dispatch_query_mode (s : SamplerStrategies) (mode : String) :
    Except QueryError VolumeBuffer :=
  if mode = "march_occ_multi_upsample" then .ok s.march_occ_multi_upsample
  else if mode = "march_occ_multi_upsample_compressed" then
    .ok s.march_occ_multi_upsample_compressed
  else if mode = "march_occ_multi_upsample_compressed_strategy" then .error .notImplemented
  else if mode = "coarse_multi_upsample" then .ok s.coarse_multi_upsample
  else if mode = "march_occ" then .error .notImplemented
  else if mode = "sphere_trace" then .ok s.sphere_trace
  else .error (.invalidQueryMode mode)

/-- The per-object rendering branch (source lines 396-439): a non-empty
buffer is composited by its layout's arm; the empty buffer leaves the
zero-initialized outputs untouched.  The third component records whether
the compositing body ran. -/
def render_volume_buffer (training : Bool) (normFn : Vec3 → Vec3)
    (withRgb withNormal depthNorm : Bool) (vb : VolumeBuffer) (r : Rendered) :
    VolumeBuffer × Rendered × Bool :=
  match vb with
  | .empty => (.empty, r, false)
  | .batched b =>
    let br := renderBatched training normFn withRgb withNormal depthNorm b r
    (.batched br.1, br.2, true)
  | .packed p =>
    let pr := renderPacked training normFn withRgb withNormal depthNorm p r
    (.packed pr.1, pr.2, true)

/-- The observable outcome of one `ray_query` call.  `volume_buffer` is
present iff `return_buffer` was requested and `rendered` iff
`render_per_obj_individual` was; the two trailing booleans are bookkeeping
recording whether a sampler strategy was invoked and whether the
compositing body ran (in the source these are facts about which statements
executed, not returned values).  The diagnostic `details` dict
(`return_details`) only repackages external state (annealer value,
acceleration debug statistics) and is not modelled. -/
structure RayQueryOut where
  volume_buffer : Option VolumeBuffer
  rendered : Option Rendered
  samplerInvoked : Bool
  compositorRan : Bool
deriving DecidableEq, Repr

/-- The `ray_query` orchestrator (source lines 234-440): prepare the empty
buffer and the zero-filled rendered outputs, short-circuit when zero rays
were tested, otherwise dispatch to the configured sampler strategy and
optionally composite.  The source assigns `raw_ret['volume_buffer']` before
the rendering branch, but the branch mutates that same dict in place
(adding `vw`, clamping `nablas`); the model returns the post-branch buffer
to reflect the aliasing.  `numTotalRays` is the ray-batch shape prefix of
`ray_input`; `numRaysTested` is `ray_tested['num_rays']`. -/
def ray_query (training : Bool) (normFn : Vec3 → Vec3) (s : SamplerStrategies)
    (numTotalRays numRaysTested : Nat) (cfg : QueryConfig)
    (return_buffer render_per_obj : Bool) : Except QueryError RayQueryOut :=
  let initBuf : Option VolumeBuffer := if return_buffer then some .empty else none
  let initR : Option Rendered :=
    if render_per_obj then some (zeroRendered numTotalRays cfg.with_rgb cfg.with_normal)
    else none
  if numRaysTested = 0 then
    .ok { volume_buffer := initBuf, rendered := initR,
          samplerInvoked := false, compositorRan := false }
  else
    match dispatch_query_mode s cfg.query_mode with
    | .error e => .error e
    | .ok vb =>
      if render_per_obj then
        let res := render_volume_buffer training normFn cfg.with_rgb cfg.with_normal
          cfg.depth_use_normalized_vw vb
          (zeroRendered numTotalRays cfg.with_rgb cfg.with_normal)
        .ok { volume_buffer := if return_buffer then some res.1 else none,
              rendered := some res.2.1,
              samplerInvoked := true, compositorRan := res.2.2 }
      else
        .ok { volume_buffer := if return_buffer then some vb else none,
              rendered := none, samplerInvoked := true, compositorRan := false }

/-- The two rejection modes of `ray_test`'s entry assertions. -/
inductive RayTestError where
  | badRayDims
  | extraDimMismatch (k : String)
deriving DecidableEq, Repr

/-- The entry checks of `ray_test` (source lines 227-231), applied to the
shapes of the inputs: first `assert rays_o.dim() == 2 and rays_d.dim() == 2`
(nothing constrains the column count), then, for every tensor-valued extra
per-ray attribute, `assert v.shape[0] == rays_o.shape[0]`.  On success the
call is handed to the external `self.space.ray_test`, modelled as plain
success. -/
def ray_test (raysOShape raysDShape : List Nat)
    (extraShapes : List (String × List Nat)) : Except RayTestError Unit :=
  if ¬(raysOShape.length = 2 ∧ raysDShape.length = 2) then .error .badRayDims
  else
    match extraShapes.find? (fun kv => decide (kv.2.head? ≠ raysOShape.head?)) with
    | some kv => .error (.extraDimMismatch kv.1)
    | none => .ok ()

/-- An axis-aligned bounding box, the `new_aabb` values passed around by
`shrink`. -/
abbrev Aabb := Vec3 × Vec3

/-- The acceleration-structure operations the mixin invokes, recorded as an
event trace (the structure itself is an external capability object). -/
inductive AccelEvent where
  | collect_samples
  | accel_init
  | accel_step (it : Nat)
  | try_shrink
  | rescale_net
  | rescale_accel
  | rescale_space
deriving DecidableEq, Repr

/-- The externally-owned state of the acceleration structure that the mixin
reads: its bounds, its `training_granularity`, and the tighter bounds its
`try_shrink` would currently report. -/
structure AccelState where
  aabb : Aabb
  training_granularity : ℤ
  shrinkResult : Aabb
deriving DecidableEq, Repr

/-- The mixin state of `NeusRendererMixin` relevant to the training hooks
and `shrink`: `self.accel` (possibly `None`), `self.upsample_s_divisor`,
`self.it`, `self.shrink_milestones`, and the bounds held by the space
object and by the field network. -/
structure Mixin where
  training : Bool
  accel : Option AccelState
  upsample_s_divisor : ℚ
  it : Nat
  space_aabb : Aabb
  net_aabb : Aabb
  shrink_milestones : List Nat
deriving DecidableEq, Repr

/-- The Python failure that using `self.accel` while it is `None` would
raise (`AttributeError` on `NoneType`). -/
inductive MixinError where
  | accelIsNone
deriving DecidableEq, Repr

/-- `forward_sdf` (source lines 154-158): call the network, then feed the
evaluated points back into `self.accel.collect_samples` only when training,
not suppressed, and the acceleration structure exists.  `netSdf` is the
external `super().forward_sdf`. -/
def forward_sdf (m : Mixin) (netSdf : Vec3 → ℚ) (x : Vec3) (skipAccel : Bool) :
    ℚ × List AccelEvent :=
  let ret := netSdf x
  if m.training && !skipAccel && m.accel.isSome then (ret, [.collect_samples])
  else (ret, [])

/-- `forward_sdf_nablas` (source lines 160-164): same collection guard as
`forward_sdf`, around the external SDF+gradient network call. -/
def forward_sdf_nablas (m : Mixin) (netSdfNablas : Vec3 → ℚ × Vec3) (x : Vec3)
    (skipAccel : Bool) : (ℚ × Vec3) × List AccelEvent :=
  let ret := netSdfNablas x
  if m.training && !skipAccel && m.accel.isSome then (ret, [.collect_samples])
  else (ret, [])

/-- Model of `training_initialize` (source lines 170-174): the super-class
result is passed through; `self.accel.init` runs only when not suppressed
and the acceleration structure exists. -/
def training_init (m : Mixin) (superUpdated : Bool) (skipAccel : Bool) :
    Bool × List AccelEvent :=
  if !skipAccel && m.accel.isSome then (superUpdated, [.accel_init])
  else (superUpdated, [])

/-- `training_before_per_step` (source lines 176-186): record the
iteration; when not suppressed and the acceleration structure exists,
recompute `upsample_s_divisor = 2 ** accel.training_granularity` and, when
training, advance the structure. -/
def training_before_per_step (m : Mixin) (curIt : Nat) (skipAccel : Bool) :
    Mixin × List AccelEvent :=
  let m1 := { m with it := curIt }
  match m1.accel with
  | some a =>
    if skipAccel then (m1, [])
    else
      let m2 := { m1 with upsample_s_divisor := (2 : ℚ) ^ a.training_granularity }
      if m1.training then (m2, [.accel_step curIt]) else (m2, [])
  | none => (m1, [])

/-- `shrink` (source lines 195-208): `new_aabb = self.accel.try_shrink()`
— unguarded, so `self.accel is None` fails — then rescale the network
(`super().rescale_volume`), then the acceleration structure, and the space
object last (the source comment: always rescale space at the last step,
since the old space is required by the previous steps). -/
def shrink (m : Mixin) : Except MixinError (Mixin × List AccelEvent) :=
  match m.accel with
  | none => .error .accelIsNone
  | some a =>
    let newAabb := a.shrinkResult
    let m1 := { m with net_aabb := newAabb }
    let m2 := { m1 with accel := some { a with aabb := newAabb } }
    let m3 := { m2 with space_aabb := newAabb }
    .ok (m3, [.try_shrink, .rescale_net, .rescale_accel, .rescale_space])

/-- `training_after_per_step` (source lines 188-193): when not suppressed
and the acceleration structure exists, trigger `shrink` at the configured
milestones. -/
def training_after_per_step (m : Mixin) (curIt : Nat) (skipAccel : Bool) :
    Except MixinError (Mixin × List AccelEvent) :=
  if !skipAccel && m.accel.isSome then
    if curIt ∈ m.shrink_milestones then shrink m
    else .ok (m, [])
  else .ok (m, [])

/-- Decidable equality on `Except` results, so that concrete runs of the
fallible operations can be checked by evaluation. -/
instance instDecidableEqExcept {ε α : Type} [DecidableEq ε] [DecidableEq α] :
    DecidableEq (Except ε α) := fun a b =>
  match a, b with
  | .error e, .error e' =>
    if h : e = e' then .isTrue (by rw [h]) else .isFalse (by intro hc; cases hc; exact h rfl)
  | .ok v, .ok v' =>
    if h : v = v' then .isTrue (by rw [h]) else .isFalse (by intro hc; cases hc; exact h rfl)
  | .error _, .ok _ => .isFalse (by intro hc; cases hc)
  | .ok _, .error _ => .isFalse (by intro hc; cases hc)

/-! Concrete example data used by the closed witness statements below. -/

def exRows : List (List Sample) :=
  [[⟨1, 1/2, ⟨1, 0, 0⟩, ⟨2, 1, 0⟩⟩, ⟨2, 1/4, ⟨0, 1, 0⟩, ⟨0, 3, 0⟩⟩],
   [⟨3, 1/3, ⟨0, 0, 1⟩, ⟨0, 0, 5⟩⟩, ⟨4, 1/5, ⟨1, 1, 0⟩, ⟨-2, 0, 0⟩⟩]]

def exInds : List Nat := [0, 2]

def exBatched : BatchedBuffer := batchedOfRows exInds exRows

def exPacked : PackedBuffer := packedOfRows exInds exRows

/-- Strategies record whose `march_occ_multi_upsample` entry produces the
given buffer (the others produce the empty buffer). -/
def exStrategies (vb : VolumeBuffer) : SamplerStrategies :=
  { march_occ_multi_upsample := vb
    march_occ_multi_upsample_compressed := .empty
    coarse_multi_upsample := .empty
    sphere_trace := .empty }

def exCfg : QueryConfig :=
  { query_mode := "march_occ_multi_upsample", with_rgb := true
    with_normal := true, perturb := false }

def exAabb : Aabb := (⟨-1, -1, -1⟩, ⟨1, 1, 1⟩)

def exAabbSmall : Aabb := (⟨-1/2, -1/2, -1/2⟩, ⟨1/2, 1/2, 1/2⟩)

def exAccel : AccelState :=
  { aabb := exAabb, training_granularity := 1, shrinkResult := exAabbSmall }

def exMixin : Mixin :=
  { training := true, accel := some exAccel, upsample_s_divisor := 1, it := 0
    space_aabb := exAabb, net_aabb := exAabb, shrink_milestones := [100] }

def exMixinNoAccel : Mixin := { exMixin with accel := none }

/-- C3: every `shrink` call rescales in the strict order network evaluator
first, then the acceleration structure, then the spatial bounds object
last; the bounds object is never rescaled before the two earlier rescales
have completed. -/
theorem shrink_rescale_order (m : Mixin) (a : AccelState) (h : m.accel = some a) :
    ∃ out, shrink m = .ok out ∧
      out.2 = [AccelEvent.try_shrink, AccelEvent.rescale_net,
               AccelEvent.rescale_accel, AccelEvent.rescale_space] ∧
      out.2.indexOf AccelEvent.rescale_net < out.2.indexOf AccelEvent.rescale_accel ∧
      out.2.indexOf AccelEvent.rescale_accel < out.2.indexOf AccelEvent.rescale_space ∧
      out.1.net_aabb = a.shrinkResult ∧
      out.1.accel = some { a with aabb := a.shrinkResult } ∧
      out.1.space_aabb = a.shrinkResult := by
  have hs : shrink m = .ok
      ({ m with
          net_aabb := a.shrinkResult
          accel := some { a with aabb := a.shrinkResult }
          space_aabb := a.shrinkResult },
       [AccelEvent.try_shrink, AccelEvent.rescale_net,
        AccelEvent.rescale_accel, AccelEvent.rescale_space]) := by
    simp [shrink, h]
  exact ⟨_, hs, rfl, Nat.le.refl, Nat.le.refl, rfl, rfl, rfl⟩

theorem shrink_rescale_order_witness :
    exMixin.accel = some exAccel ∧
    ∃ out, shrink exMixin = .ok out ∧
      out.2 = [AccelEvent.try_shrink, AccelEvent.rescale_net,
               AccelEvent.rescale_accel, AccelEvent.rescale_space] ∧
      out.2.indexOf AccelEvent.rescale_net < out.2.indexOf AccelEvent.rescale_accel ∧
      out.2.indexOf AccelEvent.rescale_accel < out.2.indexOf AccelEvent.rescale_space ∧
      out.1.net_aabb = exAccel.shrinkResult ∧
      out.1.accel = some { exAccel with aabb := exAccel.shrinkResult } ∧
      out.1.space_aabb = exAccel.shrinkResult := by
  exact ⟨rfl, shrink_rescale_order exMixin exAccel rfl⟩

/-- C4: with rays to march, `ray_query` raises `NotImplementedError` for
the two declared-but-unimplemented query modes, raises the distinct
invalid-query-mode error for any unrecognized identifier, and returns
successfully for each of the four recognized implemented identifiers —
never silently falling back to a default strategy. -/
theorem ray_query_mode_dispatch (training : Bool) (normFn : Vec3 → Vec3)
    (s : SamplerStrategies) (N n : Nat) (cfg : QueryConfig)
    (rb rpo : Bool) (hn : n ≠ 0) :
    ((cfg.query_mode = "march_occ" ∨
        cfg.query_mode = "march_occ_multi_upsample_compressed_strategy") →
      ray_query training normFn s N n cfg rb rpo = .error .notImplemented) ∧
    (cfg.query_mode ∉ ["march_occ_multi_upsample", "march_occ_multi_upsample_compressed",
        "march_occ_multi_upsample_compressed_strategy", "coarse_multi_upsample",
        "march_occ", "sphere_trace"] →
      ray_query training normFn s N n cfg rb rpo =
        .error (.invalidQueryMode cfg.query_mode)) ∧
    (cfg.query_mode ∈ ["march_occ_multi_upsample", "march_occ_multi_upsample_compressed",
        "coarse_multi_upsample", "sphere_trace"] →
      ∃ out, ray_query training normFn s N n cfg rb rpo = .ok out) := by
  refine ⟨?_, ?_, ?_⟩
  · rintro (h | h) <;>
      simp [ray_query, hn, dispatch_query_mode, h]
  · intro h
    simp only [List.mem_cons, List.not_mem_nil, or_false, not_or] at h
    obtain ⟨h1, h2, h3, h4, h5, h6⟩ := h
    simp [ray_query, hn, dispatch_query_mode, h1, h2, h3, h4, h5, h6]
  · intro h
    simp only [List.mem_cons, List.not_mem_nil, or_false] at h
    obtain h | h | h | h := h <;> cases rpo <;>
      simp [ray_query, dispatch_query_mode, h, hn]

theorem ray_query_mode_dispatch_witness :
    (1 : Nat) ≠ 0 ∧
    ray_query true (fun v => v) (exStrategies .empty) 3 1
      { exCfg with query_mode := "march_occ" } true true = .error .notImplemented := by
  exact ⟨by decide, (ray_query_mode_dispatch true (fun v => v) (exStrategies .empty) 3 1
    { exCfg with query_mode := "march_occ" } true true (by decide)).1 (Or.inl rfl)⟩

/-- C8 counterexample: with the acceleration structure absent, a direct
`shrink()` call does not skip as a no-op — its first statement
`self.accel.try_shrink()` fails on `None`. -/
theorem shrink_with_accel_none_fails :
    shrink exMixinNoAccel = .error .accelIsNone := rfl

/-- C8 amended: with the acceleration structure absent, sample collection
in `forward_sdf` / `forward_sdf_nablas`, init in `training_initialize`,
divisor update and step in `training_before_per_step`, and the
milestone-triggered shrink in `training_after_per_step` all skip as no-ops
without failing; the `shrink` method itself is reached only through the
guarded milestone site. -/
theorem accel_none_call_sites_noop (m : Mixin) (h : m.accel = none)
    (netSdf : Vec3 → ℚ) (netSdfNablas : Vec3 → ℚ × Vec3) (x : Vec3)
    (superUpdated skipAccel : Bool) (curIt : Nat) :
    forward_sdf m netSdf x skipAccel = (netSdf x, []) ∧
    forward_sdf_nablas m netSdfNablas x skipAccel = (netSdfNablas x, []) ∧
    training_init m superUpdated skipAccel = (superUpdated, []) ∧
    training_before_per_step m curIt skipAccel =
      ({ m with it := curIt, upsample_s_divisor := m.upsample_s_divisor }, []) ∧
    training_after_per_step m curIt skipAccel = .ok (m, []) := by
  refine ⟨?_, ?_, ?_, ?_, ?_⟩ <;>
    simp [forward_sdf, forward_sdf_nablas, training_init, training_before_per_step,
      training_after_per_step, h]

theorem accel_none_call_sites_noop_witness :
    exMixinNoAccel.accel = none ∧
    (forward_sdf exMixinNoAccel (fun _ => 1) ⟨0, 0, 0⟩ false = (1, []) ∧
     forward_sdf_nablas exMixinNoAccel (fun _ => (1, ⟨0, 0, 1⟩)) ⟨0, 0, 0⟩ false
       = ((1, ⟨0, 0, 1⟩), []) ∧
     training_init exMixinNoAccel true false = (true, []) ∧
     training_before_per_step exMixinNoAccel 100 false =
       ({ exMixinNoAccel with
            it := 100
            upsample_s_divisor := exMixinNoAccel.upsample_s_divisor }, []) ∧
     training_after_per_step exMixinNoAccel 100 false = .ok (exMixinNoAccel, [])) := by
  exact ⟨rfl, accel_none_call_sites_noop exMixinNoAccel rfl (fun _ => 1)
    (fun _ => (1, ⟨0, 0, 1⟩)) ⟨0, 0, 0⟩ true false 100⟩

/-- C9: the entry assertions of `ray_test` check only that origins and
directions are rank-2 (and that tensor-valued extras share the leading
dimension); a rank-2 array with 4 columns is accepted, contradicting the
claimed 3-column rejection — while the documented rank and leading-dim
rejections do fire. -/
theorem ray_test_shape_checks :
    ray_test [2, 4] [2, 4] [] = .ok () ∧
    ray_test [2, 3] [2, 3] [(("rays_ts" : String), [2])] = .ok () ∧
    ray_test [2, 3, 1] [2, 3] [] = .error .badRayDims ∧
    ray_test [5, 3] [5, 3] [(("rays_ts" : String), [4])]
      = .error (.extraDimMismatch ("rays_ts" : String)) := by
  decide

/-- C2 counterexample: a call that tests one ray and hits none (the
dispatched strategy returns the empty buffer) does invoke the sampler —
`ray_query` only short-circuits ahead of the sampler when zero rays were
tested, so the claim's "without invoking the sampler" fails for the
zero-hit case. -/
theorem zero_hit_rays_still_invoke_sampler :
    ray_query false (fun v => v) (exStrategies .empty) 4 1
      { exCfg with with_rgb := false, with_normal := false } true true =
    .ok { volume_buffer := some .empty
          rendered := some (zeroRendered 4 false false)
          samplerInvoked := true
          compositorRan := false } := by
  decide

/-- C2 amended: a `ray_query` call with zero tested rays short-circuits —
no sampler strategy and no compositing runs — and returns the well-typed
empty buffer (when requested) and zero-filled outputs over the ray-batch
shape (when per-object rendering is requested); with rays tested but zero
rays hit, the sampler is the one that reports the empty buffer, after
which compositing is skipped and the same well-typed empty/zero structures
are returned without error. -/
theorem ray_query_zero_rays_behavior (training : Bool) (normFn : Vec3 → Vec3)
    (s : SamplerStrategies) (N n : Nat) (cfg : QueryConfig) (rb rpo : Bool) :
    (ray_query training normFn s N 0 cfg rb rpo =
      .ok { volume_buffer := if rb then some .empty else none
            rendered := if rpo then some (zeroRendered N cfg.with_rgb cfg.with_normal)
                        else none
            samplerInvoked := false
            compositorRan := false }) ∧
    (n ≠ 0 → dispatch_query_mode s cfg.query_mode = .ok .empty →
      ray_query training normFn s N n cfg rb rpo =
        .ok { volume_buffer := if rb then some .empty else none
              rendered := if rpo then some (zeroRendered N cfg.with_rgb cfg.with_normal)
                          else none
              samplerInvoked := true
              compositorRan := false }) := by
  constructor
  · simp [ray_query]
  · intro hn hd
    cases rpo <;> simp [ray_query, hn, hd, render_volume_buffer]

theorem ray_query_zero_rays_behavior_witness :
    ((3 : Nat) ≠ 0 ∧ dispatch_query_mode (exStrategies .empty) exCfg.query_mode = .ok .empty) ∧
    ray_query true (fun v => v) (exStrategies .empty) 5 3 exCfg true true =
      .ok { volume_buffer := some .empty
            rendered := some (zeroRendered 5 exCfg.with_rgb exCfg.with_normal)
            samplerInvoked := true
            compositorRan := false } := by
  exact ⟨⟨by decide, by decide⟩,
    (ray_query_zero_rays_behavior true (fun v => v) (exStrategies .empty) 5 3 exCfg
      true true).2 (by decide) (by decide)⟩

/-- C10: when per-object rendering runs on a non-empty buffer, `ray_query`
returns (to a caller that also requested the buffer) the in-place-mutated
buffer: the `vw` weights entry has been added, and — at inference time
with normals requested — the buffer's `nablas` have been clamped to
`[-1, 1]` componentwise by the in-place `clamp_`. -/
theorem ray_query_buffer_inplace_mutation (training : Bool) (normFn : Vec3 → Vec3)
    (s : SamplerStrategies) (N n : Nat) (cfg : QueryConfig)
    (b : BatchedBuffer) (p : PackedBuffer) (hn : n ≠ 0) :
    (dispatch_query_mode s cfg.query_mode = .ok (.batched b) →
      ∃ out, ray_query training normFn s N n cfg true true = .ok out ∧
        out.volume_buffer = some (.batched
          { b with
              vw := some (ray_alpha_to_vw b.opacity_alpha)
              nablas := if cfg.with_normal && !training
                        then b.nablas.map (List.map clamp3) else b.nablas })) ∧
    (dispatch_query_mode s cfg.query_mode = .ok (.packed p) →
      ∃ out, ray_query training normFn s N n cfg true true = .ok out ∧
        out.volume_buffer = some (.packed
          { p with
              vw := some (packed_alpha_to_vw p.opacity_alpha p.pack_infos_hit)
              nablas := if cfg.with_normal && !training
                        then p.nablas.map clamp3 else p.nablas })) := by
  constructor
  · intro hd
    have hq : ray_query training normFn s N n cfg true true = .ok
        { volume_buffer := some (render_volume_buffer training normFn cfg.with_rgb
            cfg.with_normal cfg.depth_use_normalized_vw (VolumeBuffer.batched b)
            (zeroRendered N cfg.with_rgb cfg.with_normal)).1
          rendered := some (render_volume_buffer training normFn cfg.with_rgb
            cfg.with_normal cfg.depth_use_normalized_vw (VolumeBuffer.batched b)
            (zeroRendered N cfg.with_rgb cfg.with_normal)).2.1
          samplerInvoked := true
          compositorRan := (render_volume_buffer training normFn cfg.with_rgb
            cfg.with_normal cfg.depth_use_normalized_vw (VolumeBuffer.batched b)
            (zeroRendered N cfg.with_rgb cfg.with_normal)).2.2 } := by
      simp [ray_query, hn, hd]
    refine ⟨_, hq, ?_⟩
    cases hw : cfg.with_normal && !training <;>
      simp [render_volume_buffer, renderBatched, hw]
  · intro hd
    have hq : ray_query training normFn s N n cfg true true = .ok
        { volume_buffer := some (render_volume_buffer training normFn cfg.with_rgb
            cfg.with_normal cfg.depth_use_normalized_vw (VolumeBuffer.packed p)
            (zeroRendered N cfg.with_rgb cfg.with_normal)).1
          rendered := some (render_volume_buffer training normFn cfg.with_rgb
            cfg.with_normal cfg.depth_use_normalized_vw (VolumeBuffer.packed p)
            (zeroRendered N cfg.with_rgb cfg.with_normal)).2.1
          samplerInvoked := true
          compositorRan := (render_volume_buffer training normFn cfg.with_rgb
            cfg.with_normal cfg.depth_use_normalized_vw (VolumeBuffer.packed p)
            (zeroRendered N cfg.with_rgb cfg.with_normal)).2.2 } := by
      simp [ray_query, hn, hd]
    refine ⟨_, hq, ?_⟩
    cases hw : cfg.with_normal && !training <;>
      simp [render_volume_buffer, renderPacked, hw]

theorem ray_query_buffer_inplace_mutation_witness :
    ((1 : Nat) ≠ 0 ∧
      dispatch_query_mode (exStrategies (.batched exBatched)) exCfg.query_mode
        = .ok (.batched exBatched)) ∧
    ∃ out, ray_query false (fun v => v) (exStrategies (.batched exBatched)) 4 1 exCfg
        true true = .ok out ∧
      out.volume_buffer = some (.batched
        { exBatched with
            vw := some (ray_alpha_to_vw exBatched.opacity_alpha)
            nablas := if exCfg.with_normal && !false
                      then exBatched.nablas.map (List.map clamp3) else exBatched.nablas }) := by
  exact ⟨⟨by decide, rfl⟩,
    (ray_query_buffer_inplace_mutation false (fun v => v)
      (exStrategies (.batched exBatched)) 4 1 exCfg exBatched exPacked (by decide)).1
      rfl⟩

/-! Helper lemmas about `scatter` (indexed assignment) and list indexing,
shared by the compositing theorems below. -/

theorem length_foldl_set (ps : List (Nat × α)) (dst : List α) :
    (ps.foldl (fun acc p => acc.set p.1 p.2) dst).length = dst.length := by
  induction ps generalizing dst with
  | nil => rfl
  | cons q qs ih => rw [List.foldl_cons, ih, List.length_set]

theorem length_scatter (dst : List α) (inds : List Nat) (vals : List α) :
    (scatter dst inds vals).length = dst.length :=
  length_foldl_set _ _

theorem getD_foldl_set_not_mem (ps : List (Nat × α)) (dst : List α) (j : Nat) (d : α)
    (h : ∀ q ∈ ps, q.1 ≠ j) :
    (ps.foldl (fun acc p => acc.set p.1 p.2) dst).getD j d = dst.getD j d := by
  induction ps generalizing dst with
  | nil => rfl
  | cons q qs ih =>
    rw [List.foldl_cons, ih _ (fun r hr => h r (List.mem_cons_of_mem q hr))]
    have hq : q.1 ≠ j := h q (List.mem_cons_self q qs)
    simp [List.getD_eq_getElem?_getD, hq]

theorem getD_scatter_not_mem (dst : List α) (inds : List Nat) (vals : List α)
    (j : Nat) (d : α) (h : j ∉ inds) :
    (scatter dst inds vals).getD j d = dst.getD j d := by
  apply getD_foldl_set_not_mem
  intro q hq hqj
  exact h (hqj ▸ (List.of_mem_zip hq).1)

theorem getD_replicate_of_lt {n j : Nat} {a d : α} (h : j < n) :
    (List.replicate n a).getD j d = a := by
  simp [List.getD_eq_getElem?_getD, List.getElem?_replicate, h]

theorem getD_scatter_self (inds : List Nat) (vals : List α) (dst : List α)
    (hnd : inds.Nodup) (hlen : vals.length = inds.length)
    (hb : ∀ j ∈ inds, j < dst.length) :
    ∀ i, i < inds.length → ∀ d,
      (scatter dst inds vals).getD (inds.getD i 0) d = vals.getD i d := by
  induction inds generalizing vals dst with
  | nil => intro i hi; simp at hi
  | cons k ks ih =>
    intro i hi d
    cases vals with
    | nil => simp at hlen
    | cons v vs =>
      have hscatter : scatter dst (k :: ks) (v :: vs) = scatter (dst.set k v) ks vs := by
        simp [scatter, List.zip_cons_cons]
      rw [hscatter]
      cases i with
      | zero =>
        have hk : k ∉ ks := (List.nodup_cons.mp hnd).1
        rw [List.getD_cons_zero, List.getD_cons_zero,
          getD_scatter_not_mem _ _ _ _ _ hk]
        have hklt : k < dst.length := hb k (List.mem_cons_self k ks)
        simp [List.getD_eq_getElem?_getD, List.getElem?_set_self hklt]
      | succ i' =>
        rw [List.getD_cons_succ, List.getD_cons_succ]
        exact ih vs (dst.set k v) (List.nodup_cons.mp hnd).2
          (by simpa using hlen)
          (fun j hj => by simpa [List.length_set] using hb j (List.mem_cons_of_mem k hj))
          i' (by simpa using hi) d

theorem getD_map_of_lt (l : List α) (f : α → β) (i : Nat) (d : β) (d0 : α)
    (h : i < l.length) : (l.map f).getD i d = f (l.getD i d0) := by
  simp [List.getD_eq_getElem?_getD, List.getElem?_eq_getElem, h]

theorem getD_zipWith_of_lt (f : α → β → γ) (l1 : List α) (l2 : List β)
    (i : Nat) (d : γ) (d1 : α) (d2 : β) (h1 : i < l1.length) (h2 : i < l2.length) :
    (List.zipWith f l1 l2).getD i d = f (l1.getD i d1) (l2.getD i d2) := by
  induction l1 generalizing l2 i with
  | nil => simp at h1
  | cons a as ih =>
    cases l2 with
    | nil => simp at h2
    | cons b bs =>
      cases i with
      | zero => simp
      | succ i' =>
        simpa using ih bs i' (by simpa using h1) (by simpa using h2)

/-! Helper lemmas relating the packed (segmented) operations over the
canonical flattening of per-ray rows to the corresponding per-row
operations. -/

theorem length_alphaToVwFrom (T : ℚ) (l : List ℚ) :
    (alphaToVwFrom T l).length = l.length := by
  induction l generalizing T with
  | nil => rfl
  | cons a as ih => simp [alphaToVwFrom, ih]

theorem map_length_map_of (g : List α → List β) (rows : List (List α))
    (h : ∀ r, (g r).length = r.length) :
    (rows.map g).map List.length = rows.map List.length := by
  induction rows with
  | nil => rfl
  | cons r rs ih => simp [h, ih]

theorem map_length_map (f : α → β) (rows : List (List α)) :
    (rows.map (List.map f)).map List.length = rows.map List.length :=
  map_length_map_of _ _ (fun r => by simp)

theorem map_segment_packInfosFrom (rows : List (List α)) :
    ∀ (pre : List β) (rows' : List (List β)),
      rows.map List.length = rows'.map List.length →
      (packInfosFrom pre.length rows).map (fun oc => segment (pre ++ rows'.flatten) oc)
        = rows' := by
  induction rows with
  | nil =>
    intro pre rows' h
    cases rows' with
    | nil => rfl
    | cons r' rs' => simp at h
  | cons r rs ih =>
    intro pre rows' h
    cases rows' with
    | nil => simp at h
    | cons r' rs' =>
      simp only [List.map_cons, List.cons.injEq] at h
      obtain ⟨hlen, hrest⟩ := h
      simp only [packInfosFrom, List.map_cons]
      have hhead : segment (pre ++ (r' :: rs').flatten) (pre.length, r.length) = r' := by
        simp only [segment, List.flatten_cons]
        rw [List.drop_left, List.take_left' hlen.symm]
      have htail : (packInfosFrom (pre.length + r.length) rs).map
          (fun oc => segment (pre ++ (r' :: rs').flatten) oc) = rs' := by
        have h1 : pre.length + r.length = (pre ++ r').length := by
          rw [List.length_append, hlen]
        have h2 : pre ++ (r' :: rs').flatten = (pre ++ r') ++ rs'.flatten := by
          rw [List.flatten_cons, List.append_assoc]
        rw [h1, h2]
        exact ih (pre ++ r') rs' hrest
      rw [hhead, htail]

theorem map_segment_canonical (rows : List (List α)) (rows' : List (List β))
    (h : rows.map List.length = rows'.map List.length) :
    (canonicalPackInfos rows).map (fun oc => segment rows'.flatten oc) = rows' := by
  have h2 := map_segment_packInfosFrom rows ([] : List β) rows' h
  simpa [canonicalPackInfos] using h2

theorem packed_alpha_to_vw_canonical (rows : List (List α)) (alphas : List (List ℚ))
    (h : rows.map List.length = alphas.map List.length) :
    packed_alpha_to_vw alphas.flatten (canonicalPackInfos rows)
      = (alphas.map (alphaToVwFrom 1)).flatten := by
  unfold packed_alpha_to_vw
  have h2 : (canonicalPackInfos rows).map
      (fun oc => alphaToVwFrom 1 (segment alphas.flatten oc))
      = ((canonicalPackInfos rows).map (fun oc => segment alphas.flatten oc)).map
          (alphaToVwFrom 1) := by
    rw [List.map_map]; rfl
  rw [h2, map_segment_canonical rows alphas h]

theorem packed_sum_canonical (rows : List (List α)) (rows' : List (List ℚ))
    (h : rows.map List.length = rows'.map List.length) :
    packed_sum rows'.flatten (canonicalPackInfos rows) = rows'.map List.sum := by
  unfold packed_sum
  have h2 : (canonicalPackInfos rows).map (fun oc => (segment rows'.flatten oc).sum)
      = ((canonicalPackInfos rows).map (fun oc => segment rows'.flatten oc)).map
          List.sum := by
    rw [List.map_map]; rfl
  rw [h2, map_segment_canonical rows rows' h]

theorem packed_sum_vec_canonical (rows : List (List α)) (rows' : List (List Vec3))
    (h : rows.map List.length = rows'.map List.length) :
    packed_sum_vec rows'.flatten (canonicalPackInfos rows) = rows'.map vecSum := by
  unfold packed_sum_vec
  have h2 : (canonicalPackInfos rows).map (fun oc => vecSum (segment rows'.flatten oc))
      = ((canonicalPackInfos rows).map (fun oc => segment rows'.flatten oc)).map
          vecSum := by
    rw [List.map_map]; rfl
  rw [h2, map_segment_canonical rows rows' h]

theorem map_segment_zip_packInfosFrom (rows : List (List α)) :
    ∀ (pre : List ℚ) (rows' : List (List ℚ)) (ds : List ℚ),
      rows.map List.length = rows'.map List.length →
      ((packInfosFrom pre.length rows).zip ds).map
          (fun p => (segment (pre ++ rows'.flatten) p.1).map (fun q => q / p.2))
        = List.zipWith (fun row dv => row.map (fun q => q / dv)) rows' ds := by
  induction rows with
  | nil =>
    intro pre rows' ds h
    cases rows' with
    | nil => simp [packInfosFrom]
    | cons r' rs' => simp at h
  | cons r rs ih =>
    intro pre rows' ds h
    cases rows' with
    | nil => simp at h
    | cons r' rs' =>
      cases ds with
      | nil => simp [packInfosFrom]
      | cons dv ds' =>
        simp only [List.map_cons, List.cons.injEq] at h
        obtain ⟨hlen, hrest⟩ := h
        simp only [packInfosFrom, List.zip_cons_cons, List.map_cons,
          List.zipWith_cons_cons]
        have hhead : segment (pre ++ (r' :: rs').flatten) (pre.length, r.length) = r' := by
          simp only [segment, List.flatten_cons]
          rw [List.drop_left, List.take_left' hlen.symm]
        have htail : ((packInfosFrom (pre.length + r.length) rs).zip ds').map
            (fun p => (segment (pre ++ (r' :: rs').flatten) p.1).map (fun q => q / p.2))
            = List.zipWith (fun row dv' => row.map (fun q => q / dv')) rs' ds' := by
          have h1 : pre.length + r.length = (pre ++ r').length := by
            rw [List.length_append, hlen]
          have h2 : pre ++ (r' :: rs').flatten = (pre ++ r') ++ rs'.flatten := by
            rw [List.flatten_cons, List.append_assoc]
          rw [h1, h2]
          exact ih (pre ++ r') rs' ds' hrest
        rw [hhead, htail]

theorem packed_div_canonical (rows : List (List α)) (rows' : List (List ℚ)) (ds : List ℚ)
    (h : rows.map List.length = rows'.map List.length) :
    packed_div rows'.flatten ds (canonicalPackInfos rows)
      = (List.zipWith (fun row dv => row.map (fun q => q / dv)) rows' ds).flatten := by
  have h2 := map_segment_zip_packInfosFrom rows ([] : List ℚ) rows' ds h
  simp only [List.nil_append, List.length_nil] at h2
  unfold packed_div canonicalPackInfos
  rw [h2]

theorem zipWith_flatten (f : α → β → γ) (xs : List (List α)) (ys : List (List β))
    (h : xs.map List.length = ys.map List.length) :
    List.zipWith f xs.flatten ys.flatten
      = (List.zipWith (List.zipWith f) xs ys).flatten := by
  induction xs generalizing ys with
  | nil =>
    cases ys with
    | nil => rfl
    | cons y ys' => simp at h
  | cons x xs' ih =>
    cases ys with
    | nil => simp at h
    | cons y ys' =>
      simp only [List.map_cons, List.cons.injEq] at h
      obtain ⟨hlen, hrest⟩ := h
      simp only [List.flatten_cons, List.zipWith_cons_cons]
      rw [List.zipWith_append _ _ _ _ _ hlen, ih ys' hrest]

theorem map_length_zipWith_maprow (g : β → α → γ) (xs : List (List α)) (ss : List β)
    (h : ss.length = xs.length) :
    (List.zipWith (fun row s => row.map (g s)) xs ss).map List.length
      = xs.map List.length := by
  induction xs generalizing ss with
  | nil => simp
  | cons x xs' ih =>
    cases ss with
    | nil => simp at h
    | cons s ss' => simp [ih ss' (by simpa using h)]

theorem map_length_zipWith_zipWith (f : α → β → γ) (xs : List (List α))
    (ys : List (List β)) (h : xs.map List.length = ys.map List.length) :
    (List.zipWith (List.zipWith f) xs ys).map List.length = xs.map List.length := by
  induction xs generalizing ys with
  | nil => simp
  | cons x xs' ih =>
    cases ys with
    | nil => simp at h
    | cons y ys' =>
      simp only [List.map_cons, List.cons.injEq] at h
      obtain ⟨hlen, hrest⟩ := h
      simp [List.length_zipWith, hlen, ih ys' hrest]

theorem map_length_alphaToVw (xs : List (List ℚ)) :
    (xs.map (alphaToVwFrom 1)).map List.length = xs.map List.length :=
  map_length_map_of _ _ (fun r => length_alphaToVwFrom 1 r)

/-- Core dual-layout lemma: compositing the same per-ray samples through
the packed arm (stored as flat arrays plus the canonical pack-info table)
and through the batched arm produces the same rendered outputs. -/
theorem renderPacked_ofRows_eq (training : Bool) (normFn : Vec3 → Vec3)
    (withRgb withNormal depthNorm : Bool) (inds : List Nat)
    (rows : List (List Sample)) (r : Rendered) :
    (renderPacked training normFn withRgb withNormal depthNorm (packedOfRows inds rows) r).2
      = (renderBatched training normFn withRgb withNormal depthNorm
          (batchedOfRows inds rows) r).2 := by
  have hA : rows.map List.length = (rows.map (List.map Sample.alpha)).map List.length :=
    (map_length_map _ _).symm
  have hT : rows.map List.length = (rows.map (List.map Sample.t)).map List.length :=
    (map_length_map _ _).symm
  have hC : rows.map List.length = (rows.map (List.map Sample.rgb)).map List.length :=
    (map_length_map _ _).symm
  have hN : rows.map List.length = (rows.map (List.map Sample.nabla)).map List.length :=
    (map_length_map _ _).symm
  have hVW : rows.map List.length
      = ((rows.map (List.map Sample.alpha)).map (alphaToVwFrom 1)).map List.length :=
    hA.trans (map_length_alphaToVw _).symm
  have h1 : packed_alpha_to_vw ((rows.map (List.map Sample.alpha)).flatten)
        (canonicalPackInfos rows)
      = ((rows.map (List.map Sample.alpha)).map (alphaToVwFrom 1)).flatten :=
    packed_alpha_to_vw_canonical _ _ hA
  have h2 : packed_sum ((rows.map (List.map Sample.alpha)).map (alphaToVwFrom 1)).flatten
        (canonicalPackInfos rows)
      = ((rows.map (List.map Sample.alpha)).map (alphaToVwFrom 1)).map List.sum :=
    packed_sum_canonical _ _ hVW
  have h3 : packed_div ((rows.map (List.map Sample.alpha)).map (alphaToVwFrom 1)).flatten
        ((((rows.map (List.map Sample.alpha)).map (alphaToVwFrom 1)).map List.sum).map
          (fun s => s + vwEps))
        (canonicalPackInfos rows)
      = (List.zipWith (fun row s => row.map (fun w => w / (s + vwEps)))
          ((rows.map (List.map Sample.alpha)).map (alphaToVwFrom 1))
          (((rows.map (List.map Sample.alpha)).map (alphaToVwFrom 1)).map List.sum)).flatten := by
    rw [packed_div_canonical _ _ _ hVW, List.zipWith_map_right]
  have hVWN : rows.map List.length
      = (List.zipWith (fun row s => row.map (fun w => w / (s + vwEps)))
          ((rows.map (List.map Sample.alpha)).map (alphaToVwFrom 1))
          (((rows.map (List.map Sample.alpha)).map (alphaToVwFrom 1)).map List.sum)).map
            List.length :=
    hVW.trans (map_length_zipWith_maprow (fun s w => w / (s + vwEps)) _ _ (by simp)).symm
  have h5 : List.zipWith (fun w t => w * t)
        (List.zipWith (fun row s => row.map (fun w => w / (s + vwEps)))
          ((rows.map (List.map Sample.alpha)).map (alphaToVwFrom 1))
          (((rows.map (List.map Sample.alpha)).map (alphaToVwFrom 1)).map List.sum)).flatten
        ((rows.map (List.map Sample.t)).flatten)
      = (List.zipWith (List.zipWith (fun w t => w * t))
          (List.zipWith (fun row s => row.map (fun w => w / (s + vwEps)))
            ((rows.map (List.map Sample.alpha)).map (alphaToVwFrom 1))
            (((rows.map (List.map Sample.alpha)).map (alphaToVwFrom 1)).map List.sum))
          (rows.map (List.map Sample.t))).flatten :=
    zipWith_flatten _ _ _ (hVWN.symm.trans hT)
  have h6 : packed_sum (List.zipWith (List.zipWith (fun w t => w * t))
          (List.zipWith (fun row s => row.map (fun w => w / (s + vwEps)))
            ((rows.map (List.map Sample.alpha)).map (alphaToVwFrom 1))
            (((rows.map (List.map Sample.alpha)).map (alphaToVwFrom 1)).map List.sum))
          (rows.map (List.map Sample.t))).flatten (canonicalPackInfos rows)
      = (List.zipWith (List.zipWith (fun w t => w * t))
          (List.zipWith (fun row s => row.map (fun w => w / (s + vwEps)))
            ((rows.map (List.map Sample.alpha)).map (alphaToVwFrom 1))
            (((rows.map (List.map Sample.alpha)).map (alphaToVwFrom 1)).map List.sum))
          (rows.map (List.map Sample.t))).map List.sum :=
    packed_sum_canonical _ _
      (hVWN.trans (map_length_zipWith_zipWith _ _ _ (hVWN.symm.trans hT)).symm)
  have h5' : List.zipWith (fun w t => w * t)
        ((rows.map (List.map Sample.alpha)).map (alphaToVwFrom 1)).flatten
        ((rows.map (List.map Sample.t)).flatten)
      = (List.zipWith (List.zipWith (fun w t => w * t))
          ((rows.map (List.map Sample.alpha)).map (alphaToVwFrom 1))
          (rows.map (List.map Sample.t))).flatten :=
    zipWith_flatten _ _ _ (hVW.symm.trans hT)
  have h6' : packed_sum (List.zipWith (List.zipWith (fun w t => w * t))
          ((rows.map (List.map Sample.alpha)).map (alphaToVwFrom 1))
          (rows.map (List.map Sample.t))).flatten (canonicalPackInfos rows)
      = (List.zipWith (List.zipWith (fun w t => w * t))
          ((rows.map (List.map Sample.alpha)).map (alphaToVwFrom 1))
          (rows.map (List.map Sample.t))).map List.sum :=
    packed_sum_canonical _ _
      (hVW.trans (map_length_zipWith_zipWith _ _ _ (hVW.symm.trans hT)).symm)
  have h8 : List.zipWith smul
        ((rows.map (List.map Sample.alpha)).map (alphaToVwFrom 1)).flatten
        ((rows.map (List.map Sample.rgb)).flatten)
      = (List.zipWith (List.zipWith smul)
          ((rows.map (List.map Sample.alpha)).map (alphaToVwFrom 1))
          (rows.map (List.map Sample.rgb))).flatten :=
    zipWith_flatten _ _ _ (hVW.symm.trans hC)
  have h9 : packed_sum_vec (List.zipWith (List.zipWith smul)
          ((rows.map (List.map Sample.alpha)).map (alphaToVwFrom 1))
          (rows.map (List.map Sample.rgb))).flatten (canonicalPackInfos rows)
      = (List.zipWith (List.zipWith smul)
          ((rows.map (List.map Sample.alpha)).map (alphaToVwFrom 1))
          (rows.map (List.map Sample.rgb))).map vecSum :=
    packed_sum_vec_canonical _ _
      (hVW.trans (map_length_zipWith_zipWith _ _ _ (hVW.symm.trans hC)).symm)
  have h11 : List.zipWith smul
        ((rows.map (List.map Sample.alpha)).map (alphaToVwFrom 1)).flatten
        ((rows.map (List.map Sample.nabla)).flatten)
      = (List.zipWith (List.zipWith smul)
          ((rows.map (List.map Sample.alpha)).map (alphaToVwFrom 1))
          (rows.map (List.map Sample.nabla))).flatten :=
    zipWith_flatten _ _ _ (hVW.symm.trans hN)
  have h12 : packed_sum_vec (List.zipWith (List.zipWith smul)
          ((rows.map (List.map Sample.alpha)).map (alphaToVwFrom 1))
          (rows.map (List.map Sample.nabla))).flatten (canonicalPackInfos rows)
      = (List.zipWith (List.zipWith smul)
          ((rows.map (List.map Sample.alpha)).map (alphaToVwFrom 1))
          (rows.map (List.map Sample.nabla))).map vecSum :=
    packed_sum_vec_canonical _ _
      (hVW.trans (map_length_zipWith_zipWith _ _ _ (hVW.symm.trans hN)).symm)
  have hCN : rows.map List.length
      = (((rows.map (List.map Sample.nabla)).map (List.map clamp3)).map
          (List.map normFn)).map List.length :=
    hN.trans ((map_length_map _ _).trans (map_length_map _ _)).symm
  have h15 : List.zipWith smul
        ((rows.map (List.map Sample.alpha)).map (alphaToVwFrom 1)).flatten
        ((((rows.map (List.map Sample.nabla)).map (List.map clamp3)).map
          (List.map normFn)).flatten)
      = (List.zipWith (List.zipWith smul)
          ((rows.map (List.map Sample.alpha)).map (alphaToVwFrom 1))
          (((rows.map (List.map Sample.nabla)).map (List.map clamp3)).map
            (List.map normFn))).flatten :=
    zipWith_flatten _ _ _ (hVW.symm.trans hCN)
  have h16 : packed_sum_vec (List.zipWith (List.zipWith smul)
          ((rows.map (List.map Sample.alpha)).map (alphaToVwFrom 1))
          (((rows.map (List.map Sample.nabla)).map (List.map clamp3)).map
            (List.map normFn))).flatten (canonicalPackInfos rows)
      = (List.zipWith (List.zipWith smul)
          ((rows.map (List.map Sample.alpha)).map (alphaToVwFrom 1))
          (((rows.map (List.map Sample.nabla)).map (List.map clamp3)).map
            (List.map normFn))).map vecSum :=
    packed_sum_vec_canonical _ _
      (hVW.trans (map_length_zipWith_zipWith _ _ _ (hVW.symm.trans hCN)).symm)
  have h18 : List.zipWith (fun row ns => vecSum (List.zipWith smul row ns))
        ((rows.map (List.map Sample.alpha)).map (alphaToVwFrom 1))
        (((rows.map (List.map Sample.nabla)).map (List.map clamp3)).map
          (List.map normFn))
      = List.zipWith (fun row ns => vecSum (List.zipWith smul row (ns.map normFn)))
        ((rows.map (List.map Sample.alpha)).map (alphaToVwFrom 1))
        ((rows.map (List.map Sample.nabla)).map (List.map clamp3)) :=
    List.zipWith_map_right _ _ _ _
  cases training <;> cases withNormal <;>
    simp only [renderPacked, renderBatched, packedOfRows, batchedOfRows, ray_alpha_to_vw,
      List.map_flatten, h1, h2, h3, h5, h6, h5', h6', h8, h9, h11, h12, h15, h16,
      List.map_zipWith, h18, apply_ite (List.map normFn),
      Bool.not_false, Bool.not_true, Bool.and_false, Bool.and_true, Bool.true_and,
      Bool.false_and, Bool.and_self, reduceIte] <;>
    simp

/-- C1: the per-object rendering branch produces equal mask, depth, rgb and
normal outputs for the same per-ray samples stored once in the batched
layout (every hit ray holding the same sample count) and once in the packed
layout (flat arrays plus the canonical pack-info table); equality is exact
in the rational model of the floating-point arithmetic. -/
theorem batched_packed_compositing_equiv (training : Bool) (normFn : Vec3 → Vec3)
    (withRgb withNormal depthNorm : Bool) (inds : List Nat)
    (rows : List (List Sample)) (r : Rendered) (S : Nat)
    (hS : ∀ row ∈ rows, row.length = S) :
    (renderBatched training normFn withRgb withNormal depthNorm
        (batchedOfRows inds rows) r).2
      = (renderPacked training normFn withRgb withNormal depthNorm
          (packedOfRows inds rows) r).2 :=
  (renderPacked_ofRows_eq training normFn withRgb withNormal depthNorm inds rows r).symm

theorem batched_packed_compositing_equiv_witness :
    (∀ row ∈ exRows, row.length = 2) ∧
    (renderBatched false (fun v => v) true true true (batchedOfRows exInds exRows)
        (zeroRendered 4 true true)).2
      = (renderPacked false (fun v => v) true true true (packedOfRows exInds exRows)
          (zeroRendered 4 true true)).2 :=
  ⟨by decide, batched_packed_compositing_equiv false (fun v => v) true true true
    exInds exRows (zeroRendered 4 true true) 2 (by decide)⟩

theorem untouchedAt_zeroRendered (N j : Nat) (wrgb wn : Bool) (hjN : j < N) :
    UntouchedAt (zeroRendered N wrgb wn) N j wrgb wn := by
  refine ⟨by simp [zeroRendered], by simp [zeroRendered], ?_, ?_, ?_, ?_⟩
  · simp only [zeroRendered]
    exact getD_replicate_of_lt hjN
  · simp only [zeroRendered]
    exact getD_replicate_of_lt hjN
  · intro h
    simp only [zeroRendered, h, reduceIte]
    exact ⟨_, rfl, by simp, getD_replicate_of_lt hjN⟩
  · intro h
    simp only [zeroRendered, h, reduceIte]
    exact ⟨_, rfl, by simp, getD_replicate_of_lt hjN⟩

theorem untouchedAt_renderBatched (training : Bool) (normFn : Vec3 → Vec3)
    (wrgb wn dn : Bool) (b : BatchedBuffer) (N j : Nat)
    (hj : j ∉ b.rays_inds_hit) (hjN : j < N) :
    UntouchedAt (renderBatched training normFn wrgb wn dn b (zeroRendered N wrgb wn)).2
      N j wrgb wn := by
  refine ⟨?_, ?_, ?_, ?_, ?_, ?_⟩
  · simp [renderBatched, zeroRendered, length_scatter]
  · simp [renderBatched, zeroRendered, length_scatter]
  · simp only [renderBatched, zeroRendered]
    rw [getD_scatter_not_mem _ _ _ _ _ hj]
    exact getD_replicate_of_lt hjN
  · simp only [renderBatched, zeroRendered]
    rw [getD_scatter_not_mem _ _ _ _ _ hj]
    exact getD_replicate_of_lt hjN
  · intro h
    simp only [renderBatched, zeroRendered, h, reduceIte, Option.map_some']
    refine ⟨_, rfl, by simp [length_scatter], ?_⟩
    rw [getD_scatter_not_mem _ _ _ _ _ hj]
    exact getD_replicate_of_lt hjN
  · intro h
    cases training <;>
      · simp only [renderBatched, zeroRendered, h, reduceIte, Option.map_some',
          Bool.not_false, Bool.not_true, Bool.and_false, Bool.and_true,
          Bool.false_eq_true, Bool.true_eq_false, if_true, if_false]
        refine ⟨_, rfl, by simp [length_scatter], ?_⟩
        rw [getD_scatter_not_mem _ _ _ _ _ hj]
        exact getD_replicate_of_lt hjN

theorem untouchedAt_renderPacked (training : Bool) (normFn : Vec3 → Vec3)
    (wrgb wn dn : Bool) (p : PackedBuffer) (N j : Nat)
    (hj : j ∉ p.rays_inds_hit) (hjN : j < N) :
    UntouchedAt (renderPacked training normFn wrgb wn dn p (zeroRendered N wrgb wn)).2
      N j wrgb wn := by
  refine ⟨?_, ?_, ?_, ?_, ?_, ?_⟩
  · simp [renderPacked, zeroRendered, length_scatter]
  · simp [renderPacked, zeroRendered, length_scatter]
  · simp only [renderPacked, zeroRendered]
    rw [getD_scatter_not_mem _ _ _ _ _ hj]
    exact getD_replicate_of_lt hjN
  · simp only [renderPacked, zeroRendered]
    rw [getD_scatter_not_mem _ _ _ _ _ hj]
    exact getD_replicate_of_lt hjN
  · intro h
    simp only [renderPacked, zeroRendered, h, reduceIte, Option.map_some']
    refine ⟨_, rfl, by simp [length_scatter], ?_⟩
    rw [getD_scatter_not_mem _ _ _ _ _ hj]
    exact getD_replicate_of_lt hjN
  · intro h
    cases training <;>
      · simp only [renderPacked, zeroRendered, h, reduceIte, Option.map_some',
          Bool.not_false, Bool.not_true, Bool.and_false, Bool.and_true,
          Bool.false_eq_true, Bool.true_eq_false, if_true, if_false]
        refine ⟨_, rfl, by simp [length_scatter], ?_⟩
        rw [getD_scatter_not_mem _ _ _ _ _ hj]
        exact getD_replicate_of_lt hjN

/-- C7: for every `ray_query` call with per-object rendering requested, the
rendered outputs are zero-initialized over the full original ray-batch
shape and scattered into only at `rays_inds_hit`; every ray index not in
`rays_inds_hit` keeps its zero in every output array. -/
theorem render_nonhit_rays_keep_zero (training : Bool) (normFn : Vec3 → Vec3)
    (s : SamplerStrategies) (N n : Nat) (cfg : QueryConfig) (rb : Bool)
    (vb : VolumeBuffer) (j : Nat)
    (hd : dispatch_query_mode s cfg.query_mode = .ok vb)
    (hj : j ∉ bufferHitInds vb) (hjN : j < N) :
    ∃ out r', ray_query training normFn s N n cfg rb true = .ok out ∧
      out.rendered = some r' ∧ UntouchedAt r' N j cfg.with_rgb cfg.with_normal := by
  by_cases hn : n = 0
  · subst hn
    refine ⟨{ volume_buffer := if rb then some .empty else none
              rendered := some (zeroRendered N cfg.with_rgb cfg.with_normal)
              samplerInvoked := false
              compositorRan := false },
            zeroRendered N cfg.with_rgb cfg.with_normal, ?_, rfl, ?_⟩
    · simp [ray_query]
    · exact untouchedAt_zeroRendered N j cfg.with_rgb cfg.with_normal hjN
  · have hq : ray_query training normFn s N n cfg rb true = .ok
        { volume_buffer := if rb then some (render_volume_buffer training normFn
            cfg.with_rgb cfg.with_normal cfg.depth_use_normalized_vw vb
            (zeroRendered N cfg.with_rgb cfg.with_normal)).1 else none
          rendered := some (render_volume_buffer training normFn cfg.with_rgb
            cfg.with_normal cfg.depth_use_normalized_vw vb
            (zeroRendered N cfg.with_rgb cfg.with_normal)).2.1
          samplerInvoked := true
          compositorRan := (render_volume_buffer training normFn cfg.with_rgb
            cfg.with_normal cfg.depth_use_normalized_vw vb
            (zeroRendered N cfg.with_rgb cfg.with_normal)).2.2 } := by
      simp [ray_query, hn, hd]
    refine ⟨_, _, hq, rfl, ?_⟩
    cases vb with
    | empty =>
      exact untouchedAt_zeroRendered N j cfg.with_rgb cfg.with_normal hjN
    | batched b =>
      exact untouchedAt_renderBatched training normFn cfg.with_rgb cfg.with_normal
        cfg.depth_use_normalized_vw b N j hj hjN
    | packed p =>
      exact untouchedAt_renderPacked training normFn cfg.with_rgb cfg.with_normal
        cfg.depth_use_normalized_vw p N j hj hjN

theorem render_nonhit_rays_keep_zero_witness :
    (dispatch_query_mode (exStrategies (.batched exBatched)) exCfg.query_mode
        = .ok (.batched exBatched) ∧
     (1 : Nat) ∉ bufferHitInds (.batched exBatched) ∧ (1 : Nat) < 4) ∧
    ∃ out r', ray_query false (fun v => v) (exStrategies (.batched exBatched)) 4 6 exCfg
        true true = .ok out ∧
      out.rendered = some r' ∧ UntouchedAt r' 4 1 exCfg.with_rgb exCfg.with_normal :=
  ⟨⟨rfl, by decide, by decide⟩,
   render_nonhit_rays_keep_zero false (fun v => v) (exStrategies (.batched exBatched))
     4 6 exCfg true (.batched exBatched) 1 rfl (by decide) (by decide)⟩

theorem sum_zipWith_div (row ts : List ℚ) (c : ℚ) :
    (List.zipWith (fun w t => w * t) (row.map (fun w => w / c)) ts).sum
      = (List.zipWith (fun w t => w * t) row ts).sum / c := by
  rw [List.zipWith_map_left]
  induction row generalizing ts with
  | nil => simp
  | cons a as ih =>
    cases ts with
    | nil => simp
    | cons t ts' =>
      rw [List.zipWith_cons_cons, List.zipWith_cons_cons, List.sum_cons, List.sum_cons,
        ih ts', div_mul_eq_mul_div, add_div]

/-- Per-ray outputs of the batched compositing arm read back at the ray's
scatter position: the mask is the sum of the ray's weights and the depth
follows the (normalized or raw) weighted-depth formula. -/
theorem renderBatched_mask_depth (training : Bool) (normFn : Vec3 → Vec3)
    (wrgb wn dn : Bool) (N i : Nat) (b : BatchedBuffer)
    (hnd : b.rays_inds_hit.Nodup)
    (hlenA : b.opacity_alpha.length = b.rays_inds_hit.length)
    (hlenT : b.t.length = b.rays_inds_hit.length)
    (hbN : ∀ j ∈ b.rays_inds_hit, j < N)
    (hi : i < b.rays_inds_hit.length) :
    (renderBatched training normFn wrgb wn dn b (zeroRendered N wrgb wn)).2.mask_volume.getD
        (b.rays_inds_hit.getD i 0) 0
      = (alphaToVwFrom 1 (b.opacity_alpha.getD i [])).sum ∧
    (renderBatched training normFn wrgb wn dn b (zeroRendered N wrgb wn)).2.depth_volume.getD
        (b.rays_inds_hit.getD i 0) 0
      = (if dn then
          (List.zipWith (fun w t => w * t) (alphaToVwFrom 1 (b.opacity_alpha.getD i []))
              (b.t.getD i [])).sum
            / ((alphaToVwFrom 1 (b.opacity_alpha.getD i [])).sum + vwEps)
        else
          (List.zipWith (fun w t => w * t) (alphaToVwFrom 1 (b.opacity_alpha.getD i []))
              (b.t.getD i [])).sum) := by
  have hiA : i < b.opacity_alpha.length := hlenA ▸ hi
  have hiT : i < b.t.length := hlenT ▸ hi
  have hiVW : i < (ray_alpha_to_vw b.opacity_alpha).length := by
    simpa [ray_alpha_to_vw] using hiA
  have hvwget : (ray_alpha_to_vw b.opacity_alpha).getD i []
      = alphaToVwFrom 1 (b.opacity_alpha.getD i []) := by
    simp only [ray_alpha_to_vw]
    exact getD_map_of_lt _ _ _ _ [] hiA
  constructor
  · simp only [renderBatched, zeroRendered]
    rw [getD_scatter_self _ _ _ hnd (by simp [ray_alpha_to_vw, hlenA])
        (fun j hjm => by simpa using hbN j hjm) i hi 0]
    rw [getD_map_of_lt _ _ _ _ [] hiVW, hvwget]
  · cases dn with
    | false =>
      simp only [renderBatched, zeroRendered, Bool.false_eq_true, if_false]
      rw [getD_scatter_self _ _ _ hnd
          (by simp [List.length_zipWith, ray_alpha_to_vw, hlenA, hlenT])
          (fun j hjm => by simpa using hbN j hjm) i hi 0]
      rw [getD_zipWith_of_lt _ _ _ i 0 [] [] hiVW hiT]
      rw [hvwget]
    | true =>
      simp only [renderBatched, zeroRendered, reduceIte]
      have hiSums : i < ((ray_alpha_to_vw b.opacity_alpha).map List.sum).length := by
        simpa using hiVW
      have hiVWN : i < (List.zipWith (fun row s => row.map (fun w => w / (s + vwEps)))
          (ray_alpha_to_vw b.opacity_alpha)
          ((ray_alpha_to_vw b.opacity_alpha).map List.sum)).length := by
        simpa [List.length_zipWith] using hiVW
      rw [getD_scatter_self _ _ _ hnd
          (by simp [List.length_zipWith, ray_alpha_to_vw, hlenA, hlenT])
          (fun j hjm => by simpa using hbN j hjm) i hi 0]
      rw [getD_zipWith_of_lt _ _ _ i 0 [] [] hiVWN hiT]
      rw [getD_zipWith_of_lt _ _ _ i [] [] 0 hiVW hiSums]
      rw [getD_map_of_lt _ _ _ _ [] hiVW, hvwget, sum_zipWith_div]

/-- C5: in both the batched and packed compositing arms, a hit ray's mask
equals the sum of its per-sample weights, and its depth equals
`Σ(w·t) / (Σw + 1e-10)` when normalized depth is configured (the default)
and the raw `Σ(w·t)` otherwise.  The batched arm is stated on an arbitrary
well-formed batched buffer; the packed arm on a well-formed packed buffer
(flat arrays plus canonical pack info). -/
theorem render_mask_depth_formulas (training : Bool) (normFn : Vec3 → Vec3)
    (wrgb wn dn : Bool) (N i : Nat) (b : BatchedBuffer)
    (inds2 : List Nat) (rows : List (List Sample))
    (hnd : b.rays_inds_hit.Nodup)
    (hlenA : b.opacity_alpha.length = b.rays_inds_hit.length)
    (hlenT : b.t.length = b.rays_inds_hit.length)
    (hbN : ∀ j ∈ b.rays_inds_hit, j < N)
    (hi : i < b.rays_inds_hit.length)
    (hnd2 : inds2.Nodup) (hlen2 : rows.length = inds2.length)
    (hbN2 : ∀ j ∈ inds2, j < N) (hi2 : i < inds2.length) :
    ((renderBatched training normFn wrgb wn dn b (zeroRendered N wrgb wn)).2.mask_volume.getD
        (b.rays_inds_hit.getD i 0) 0
      = (alphaToVwFrom 1 (b.opacity_alpha.getD i [])).sum ∧
     (renderBatched training normFn wrgb wn dn b (zeroRendered N wrgb wn)).2.depth_volume.getD
        (b.rays_inds_hit.getD i 0) 0
      = (if dn then
          (List.zipWith (fun w t => w * t) (alphaToVwFrom 1 (b.opacity_alpha.getD i []))
              (b.t.getD i [])).sum
            / ((alphaToVwFrom 1 (b.opacity_alpha.getD i [])).sum + vwEps)
        else
          (List.zipWith (fun w t => w * t) (alphaToVwFrom 1 (b.opacity_alpha.getD i []))
              (b.t.getD i [])).sum)) ∧
    ((renderPacked training normFn wrgb wn dn (packedOfRows inds2 rows)
        (zeroRendered N wrgb wn)).2.mask_volume.getD (inds2.getD i 0) 0
      = (alphaToVwFrom 1 ((rows.getD i []).map Sample.alpha)).sum ∧
     (renderPacked training normFn wrgb wn dn (packedOfRows inds2 rows)
        (zeroRendered N wrgb wn)).2.depth_volume.getD (inds2.getD i 0) 0
      = (if dn then
          (List.zipWith (fun w t => w * t)
              (alphaToVwFrom 1 ((rows.getD i []).map Sample.alpha))
              ((rows.getD i []).map Sample.t)).sum
            / ((alphaToVwFrom 1 ((rows.getD i []).map Sample.alpha)).sum + vwEps)
        else
          (List.zipWith (fun w t => w * t)
              (alphaToVwFrom 1 ((rows.getD i []).map Sample.alpha))
              ((rows.getD i []).map Sample.t)).sum)) := by
  constructor
  · exact renderBatched_mask_depth training normFn wrgb wn dn N i b hnd hlenA hlenT hbN hi
  · have hmaster := renderPacked_ofRows_eq training normFn wrgb wn dn inds2 rows
      (zeroRendered N wrgb wn)
    have hirows : i < rows.length := hlen2 ▸ hi2
    have e1 : (rows.map (List.map Sample.alpha)).getD i []
        = (rows.getD i []).map Sample.alpha :=
      getD_map_of_lt _ _ i [] [] hirows
    have e2 : (rows.map (List.map Sample.t)).getD i [] = (rows.getD i []).map Sample.t :=
      getD_map_of_lt _ _ i [] [] hirows
    have H := renderBatched_mask_depth training normFn wrgb wn dn N i
      (batchedOfRows inds2 rows) hnd2 (by simp [batchedOfRows, hlen2])
      (by simp [batchedOfRows, hlen2]) hbN2 hi2
    rw [hmaster]
    simp only [batchedOfRows] at H
    rw [e1, e2] at H
    exact H

theorem render_mask_depth_formulas_witness :
    (exBatched.rays_inds_hit.Nodup ∧
     exBatched.opacity_alpha.length = exBatched.rays_inds_hit.length ∧
     exBatched.t.length = exBatched.rays_inds_hit.length ∧
     (∀ j ∈ exBatched.rays_inds_hit, j < 4) ∧ (0 : Nat) < exBatched.rays_inds_hit.length ∧
     exInds.Nodup ∧ exRows.length = exInds.length ∧
     (∀ j ∈ exInds, j < 4) ∧ (0 : Nat) < exInds.length) ∧
    (((renderBatched false (fun v => v) true true true exBatched
          (zeroRendered 4 true true)).2.mask_volume.getD (exBatched.rays_inds_hit.getD 0 0) 0
        = (alphaToVwFrom 1 (exBatched.opacity_alpha.getD 0 [])).sum ∧
      (renderBatched false (fun v => v) true true true exBatched
          (zeroRendered 4 true true)).2.depth_volume.getD (exBatched.rays_inds_hit.getD 0 0) 0
        = (if true then
            (List.zipWith (fun w t => w * t)
                (alphaToVwFrom 1 (exBatched.opacity_alpha.getD 0 []))
                (exBatched.t.getD 0 [])).sum
              / ((alphaToVwFrom 1 (exBatched.opacity_alpha.getD 0 [])).sum + vwEps)
          else
            (List.zipWith (fun w t => w * t)
                (alphaToVwFrom 1 (exBatched.opacity_alpha.getD 0 []))
                (exBatched.t.getD 0 [])).sum)) ∧
     ((renderPacked false (fun v => v) true true true (packedOfRows exInds exRows)
          (zeroRendered 4 true true)).2.mask_volume.getD (exInds.getD 0 0) 0
        = (alphaToVwFrom 1 ((exRows.getD 0 []).map Sample.alpha)).sum ∧
      (renderPacked false (fun v => v) true true true (packedOfRows exInds exRows)
          (zeroRendered 4 true true)).2.depth_volume.getD (exInds.getD 0 0) 0
        = (if true then
            (List.zipWith (fun w t => w * t)
                (alphaToVwFrom 1 ((exRows.getD 0 []).map Sample.alpha))
                ((exRows.getD 0 []).map Sample.t)).sum
              / ((alphaToVwFrom 1 ((exRows.getD 0 []).map Sample.alpha)).sum + vwEps)
          else
            (List.zipWith (fun w t => w * t)
                (alphaToVwFrom 1 ((exRows.getD 0 []).map Sample.alpha))
                ((exRows.getD 0 []).map Sample.t)).sum))) :=
  ⟨⟨by decide, by decide, by decide, by decide, by decide, by decide, by decide,
    by decide, by decide⟩,
   render_mask_depth_formulas false (fun v => v) true true true 4 0 exBatched exInds exRows
     (by decide) (by decide) (by decide) (by decide) (by decide) (by decide) (by decide)
     (by decide) (by decide)⟩

/-- Per-ray normal output of the batched compositing arm read back at the
ray's scatter position: at training time the raw weighted gradients are
summed; at inference time each sample normal is clamped (in place) and
passed through the normalization map before weighting. -/
theorem renderBatched_normals (training : Bool) (normFn : Vec3 → Vec3)
    (wrgb dn : Bool) (N i : Nat) (b : BatchedBuffer)
    (hnd : b.rays_inds_hit.Nodup)
    (hlenA : b.opacity_alpha.length = b.rays_inds_hit.length)
    (hlenN : b.nablas.length = b.rays_inds_hit.length)
    (hbN : ∀ j ∈ b.rays_inds_hit, j < N)
    (hi : i < b.rays_inds_hit.length) :
    ∃ nv, (renderBatched training normFn wrgb true dn b
        (zeroRendered N wrgb true)).2.normals_volume = some nv ∧
      nv.getD (b.rays_inds_hit.getD i 0) Vec3.zero
        = (if training then
            vecSum (List.zipWith smul (alphaToVwFrom 1 (b.opacity_alpha.getD i []))
              (b.nablas.getD i []))
          else
            vecSum (List.zipWith smul (alphaToVwFrom 1 (b.opacity_alpha.getD i []))
              (((b.nablas.getD i []).map clamp3).map normFn))) := by
  have hiA : i < b.opacity_alpha.length := hlenA ▸ hi
  have hiN : i < b.nablas.length := hlenN ▸ hi
  have hiVW : i < (ray_alpha_to_vw b.opacity_alpha).length := by
    simpa [ray_alpha_to_vw] using hiA
  have hvwget : (ray_alpha_to_vw b.opacity_alpha).getD i []
      = alphaToVwFrom 1 (b.opacity_alpha.getD i []) := by
    simp only [ray_alpha_to_vw]
    exact getD_map_of_lt _ _ _ _ [] hiA
  cases training with
  | true =>
    simp only [renderBatched, zeroRendered, reduceIte, Option.map_some', Bool.not_true,
      Bool.and_false, Bool.false_eq_true, if_false, if_true]
    refine ⟨_, rfl, ?_⟩
    rw [getD_scatter_self _ _ _ hnd
        (by simp [List.length_zipWith, ray_alpha_to_vw, hlenA, hlenN])
        (fun j hjm => by simpa using hbN j hjm) i hi Vec3.zero]
    rw [getD_zipWith_of_lt _ _ _ i Vec3.zero [] [] hiVW hiN]
    rw [hvwget]
  | false =>
    simp only [renderBatched, zeroRendered, reduceIte, Option.map_some', Bool.not_false,
      Bool.and_true, Bool.false_eq_true, if_false, if_true]
    refine ⟨_, rfl, ?_⟩
    have hiNC : i < (b.nablas.map (List.map clamp3)).length := by simpa using hiN
    rw [getD_scatter_self _ _ _ hnd
        (by simp [List.length_zipWith, ray_alpha_to_vw, hlenA, hlenN])
        (fun j hjm => by simpa using hbN j hjm) i hi Vec3.zero]
    rw [getD_zipWith_of_lt _ _ _ i Vec3.zero [] [] hiVW hiNC]
    rw [hvwget, getD_map_of_lt _ _ _ _ [] hiN]

/-- C6: in per-object normal rendering, at inference time each sample
normal is clamped to `[-1, 1]` componentwise and unit-normalized before
being weighted and summed, while at training time the raw unnormalized,
unclamped gradients are weighted and summed — in both the batched and
packed arms (`normFn` stands for the external `F.normalize`). -/
theorem render_normals_training_vs_inference (training : Bool) (normFn : Vec3 → Vec3)
    (wrgb dn : Bool) (N i : Nat) (b : BatchedBuffer)
    (inds2 : List Nat) (rows : List (List Sample))
    (hnd : b.rays_inds_hit.Nodup)
    (hlenA : b.opacity_alpha.length = b.rays_inds_hit.length)
    (hlenN : b.nablas.length = b.rays_inds_hit.length)
    (hbN : ∀ j ∈ b.rays_inds_hit, j < N)
    (hi : i < b.rays_inds_hit.length)
    (hnd2 : inds2.Nodup) (hlen2 : rows.length = inds2.length)
    (hbN2 : ∀ j ∈ inds2, j < N) (hi2 : i < inds2.length) :
    (∃ nv, (renderBatched training normFn wrgb true dn b
        (zeroRendered N wrgb true)).2.normals_volume = some nv ∧
      nv.getD (b.rays_inds_hit.getD i 0) Vec3.zero
        = (if training then
            vecSum (List.zipWith smul (alphaToVwFrom 1 (b.opacity_alpha.getD i []))
              (b.nablas.getD i []))
          else
            vecSum (List.zipWith smul (alphaToVwFrom 1 (b.opacity_alpha.getD i []))
              (((b.nablas.getD i []).map clamp3).map normFn)))) ∧
    (∃ nv, (renderPacked training normFn wrgb true dn (packedOfRows inds2 rows)
        (zeroRendered N wrgb true)).2.normals_volume = some nv ∧
      nv.getD (inds2.getD i 0) Vec3.zero
        = (if training then
            vecSum (List.zipWith smul
              (alphaToVwFrom 1 ((rows.getD i []).map Sample.alpha))
              ((rows.getD i []).map Sample.nabla))
          else
            vecSum (List.zipWith smul
              (alphaToVwFrom 1 ((rows.getD i []).map Sample.alpha))
              ((((rows.getD i []).map Sample.nabla).map clamp3).map normFn)))) := by
  constructor
  · exact renderBatched_normals training normFn wrgb dn N i b hnd hlenA hlenN hbN hi
  · have hmaster := renderPacked_ofRows_eq training normFn wrgb true dn inds2 rows
      (zeroRendered N wrgb true)
    have hirows : i < rows.length := hlen2 ▸ hi2
    have e1 : (rows.map (List.map Sample.alpha)).getD i []
        = (rows.getD i []).map Sample.alpha :=
      getD_map_of_lt _ _ i [] [] hirows
    have e3 : (rows.map (List.map Sample.nabla)).getD i []
        = (rows.getD i []).map Sample.nabla :=
      getD_map_of_lt _ _ i [] [] hirows
    have H := renderBatched_normals training normFn wrgb dn N i
      (batchedOfRows inds2 rows) hnd2 (by simp [batchedOfRows, hlen2])
      (by simp [batchedOfRows, hlen2]) hbN2 hi2
    rw [hmaster]
    simp only [batchedOfRows] at H
    rw [e1, e3] at H
    exact H

theorem render_normals_training_vs_inference_witness :
    (exBatched.rays_inds_hit.Nodup ∧
     exBatched.opacity_alpha.length = exBatched.rays_inds_hit.length ∧
     exBatched.nablas.length = exBatched.rays_inds_hit.length ∧
     (∀ j ∈ exBatched.rays_inds_hit, j < 4) ∧ (0 : Nat) < exBatched.rays_inds_hit.length ∧
     exInds.Nodup ∧ exRows.length = exInds.length ∧
     (∀ j ∈ exInds, j < 4) ∧ (0 : Nat) < exInds.length) ∧
    ((∃ nv, (renderBatched false (fun v => v) true true true exBatched
        (zeroRendered 4 true true)).2.normals_volume = some nv ∧
      nv.getD (exBatched.rays_inds_hit.getD 0 0) Vec3.zero
        = (if false then
            vecSum (List.zipWith smul (alphaToVwFrom 1 (exBatched.opacity_alpha.getD 0 []))
              (exBatched.nablas.getD 0 []))
          else
            vecSum (List.zipWith smul (alphaToVwFrom 1 (exBatched.opacity_alpha.getD 0 []))
              (((exBatched.nablas.getD 0 []).map clamp3).map (fun v => v))))) ∧
     (∃ nv, (renderPacked false (fun v => v) true true true (packedOfRows exInds exRows)
        (zeroRendered 4 true true)).2.normals_volume = some nv ∧
      nv.getD (exInds.getD 0 0) Vec3.zero
        = (if false then
            vecSum (List.zipWith smul
              (alphaToVwFrom 1 ((exRows.getD 0 []).map Sample.alpha))
              ((exRows.getD 0 []).map Sample.nabla))
          else
            vecSum (List.zipWith smul
              (alphaToVwFrom 1 ((exRows.getD 0 []).map Sample.alpha))
              ((((exRows.getD 0 []).map Sample.nabla).map clamp3).map (fun v => v)))))) :=
  ⟨⟨by decide, by decide, by decide, by decide, by decide, by decide, by decide,
    by decide, by decide⟩,
   render_normals_training_vs_inference false (fun v => v) true true 4 0 exBatched
     exInds exRows (by decide) (by decide) (by decide) (by decide) (by decide)
     (by decide) (by decide) (by decide) (by decide)⟩

end NeusRenderer
